import Mathlib

/-!
Verification of the `lan-infra` Portainer webhook deployment scripts.

The repository contains two variants of the `PortainerWebhookDeploy` class:

* `scripts/portainer-webhook-deploy.js` (the main script): git-diff based
  change detection feeding `deploy()`, a secret resolver `getWebhookUrl` that
  validates the `https://` scheme, and a retrying `triggerWebhook` that logs
  response bodies on failed attempts.
* an environment-variable driven variant (same class name, `run()` entry
  point): the change set comes from `ALL_CHANGED_FILES`, `getWebhookUrl`
  performs no scheme validation, and `triggerWebhook` deliberately keeps
  response bodies and network error details out of both errors and logs.
  It is embedded below in the `EnvVariant` namespace.

JavaScript strings are modelled as `List Char`; `process.env` as a map
from variable names to optional values (`none` = unset).  The HTTPS layer is
abstracted by an oracle that yields, per attempt number, the outcome the
endpoint produced for that attempt (an HTTP status with its response body,
a network error, or a timeout); timers (5s/2s retry delays, the 10s request
timeout) have no observable effect on the modelled state and are dropped.
-/

namespace LanInfra

/-- JavaScript strings, modelled character by character. -/
abbrev Chars := List Char

/-- The apostrophe character (written numerically to keep string literals
simple). -/
def squote : Char := Char.ofNat 39

/-- JS field servicesPath, the constant string services (both variants). -/
def servicesPath : Chars := "services".toList

/-- JS field secretPrefix of both variants, the fixed head
PORTAINER_WEBHOOK_ of every secret key. -/
def secretKeyBase : Chars := "PORTAINER_WEBHOOK_".toList

/-- The literal tail `/compose.yaml` of the path pattern
`^services/([^/]+)/compose\.yaml$`. -/
def composeTail : Chars := "/compose.yaml".toList

/-- One regex-match step of `extractServiceNames`, testing a path against
the anchored pattern and
returning the capture group when the whole path matches.  The capture
`[^/]+` is the maximal nonempty run of non-`/` characters after the
`services/` head, which must be followed by exactly `/compose.yaml`. -/
def matchServicePath (filePath : Chars) : Option Chars :=
  let head := servicesPath ++ ['/']
  if head.isPrefixOf filePath then
    let rest := filePath.drop head.length
    let name := rest.takeWhile (· != '/')
    if name = [] then none
    else if rest.drop name.length = composeTail then some name
    else none
  else none

/-- Declarative reading of the anchored pattern
`^services/([^/]+)/compose\.yaml$`: the path decomposes as
`services/<name>/compose.yaml` with `<name>` nonempty and free of `/`. -/
def isServiceCapture (filePath name : Chars) : Prop :=
  filePath = servicesPath ++ ['/'] ++ name ++ composeTail ∧ name ≠ [] ∧ '/' ∉ name

instance (filePath name : Chars) : Decidable (isServiceCapture filePath name) := by
  unfold isServiceCapture; infer_instance

/-- Loop body of `extractServiceNames`: adding the capture to a JS
Set, which keeps first-insertion order and ignores duplicates. -/
def extractStep (serviceNames : List Chars) (filePath : Chars) : List Chars :=
  match matchServicePath filePath with
  | some name => if name ∈ serviceNames then serviceNames else serviceNames ++ [name]
  | none => serviceNames

/-- Function extractServiceNames (identical in both variants and in the
test script): fold the match step over the paths starting from an empty set;
`Array.from` then returns the insertion-ordered distinct captures. -/
def extractServiceNames (filePaths : List Chars) : List Chars :=
  filePaths.foldl extractStep []

/-- Model of process.env: a map from variable names to optional string
values (`none` = variable unset). -/
abbrev Env := Chars → Option Chars

/-- Decimal rendering of a number interpolated into a JS template literal. -/
def natChars (n : Nat) : Chars := (Nat.repr n).toList

/-- One character of the hyphen-to-underscore replacement in `getWebhookUrl`. -/
def dashToUnderscore (c : Char) : Char := if c = '-' then '_' else c

/-- The secret-key transform of `getWebhookUrl` (both variants): replace every
hyphen with an underscore, uppercase, prepend `PORTAINER_WEBHOOK_`. -/
def secretKeyChars (serviceName : Chars) : Chars :=
  secretKeyBase ++ (serviceName.map dashToUnderscore).map Char.toUpper

/-- The same transform in the order the spec words it (uppercase the name,
then replace every `-` with `_`, then prepend the fixed head); compared
against `secretKeyChars` in the refinement theorem for C8. -/
def secretKeySpec (serviceName : Chars) : Chars :=
  secretKeyBase ++ (serviceName.map Char.toUpper).map dashToUnderscore

/-- Message of the missing-secret error thrown by the main script
(Secret <key> not found for service <name>, then four remediation lines). -/
def missingSecretMsg (secretName serviceName : Chars) : Chars :=
  "Secret ".toList ++ secretName ++ " not found for service ".toList
    ++ [squote] ++ serviceName ++ [squote] ++ ". ".toList ++ ['\n']
    ++ "1. Enable webhook in Portainer UI for ".toList ++ [squote] ++ serviceName
    ++ [squote] ++ " service".toList ++ ['\n']
    ++ "2. Copy webhook URL from Portainer".toList ++ ['\n']
    ++ "3. Add to GitHub secrets with name: ".toList ++ secretName ++ ['\n']
    ++ "4. Update .github/workflows/portainer-deploy.yml to pass the secret as environment variable".toList

/-- Message of the `InvalidWebhookScheme` error thrown by the main script. -/
def invalidSchemeMsg (serviceName : Chars) : Chars :=
  "Invalid webhook URL for ".toList ++ serviceName ++ ". Must be HTTPS.".toList

/-- Errors thrown by `getWebhookUrl` of the main script, with their
message payloads. -/
inductive WebhookError where
  | missingSecret (msg : Chars)
  | invalidScheme (msg : Chars)
deriving DecidableEq

/-- Message payload of a `WebhookError`. -/
def webhookErrMsg : WebhookError → Chars
  | .missingSecret m => m
  | .invalidScheme m => m

/-- Function getWebhookUrl(serviceName) of the main script: look the secret key up
in the environment; `!webhookUrl` (unset or empty) throws the missing-secret
error, a value not starting with `https://` throws the invalid-scheme error,
otherwise the value is returned. -/
def getWebhookUrl (env : Env) (serviceName : Chars) : Except WebhookError Chars :=
  match env (secretKeyChars serviceName) with
  | none => .error (.missingSecret (missingSecretMsg (secretKeyChars serviceName) serviceName))
  | some webhookUrl =>
    if webhookUrl = [] then
      .error (.missingSecret (missingSecretMsg (secretKeyChars serviceName) serviceName))
    else if ("https://".toList).isPrefixOf webhookUrl then .ok webhookUrl
    else .error (.invalidScheme (invalidSchemeMsg serviceName))

/-- What the HTTPS endpoint does on one attempt: respond with a status code
and a response body, fail at the network level with an error message, or
time out. -/
inductive Outcome where
  | status (code : Nat) (body : Chars)
  | netError (msg : Chars)
  | timeout
deriving DecidableEq

/-- Success test on an attempt: statusCode 200 or 204. -/
def isSuccessOutcome : Outcome → Bool
  | .status code _ => code == 200 || code == 204
  | _ => false

/-- Rejection of `triggerWebhook` (main script) after the final
attempt: an error carrying the final HTTP status, the network error itself,
or a timeout error. -/
inductive TriggerError where
  | http (code : Nat)
  | network (msg : Chars)
  | timeout
deriving DecidableEq

/-- Terminal rejection determined by the outcome of the final attempt. -/
def lastError : Outcome → TriggerError
  | .status code _ => .http code
  | .netError msg => .network msg
  | .timeout => .timeout

/-- Message texts of the rejections in the main script. -/
def triggerErrMsg (serviceName : Chars) : TriggerError → Chars
  | .http code => "Webhook failed for ".toList ++ serviceName ++ ": HTTP ".toList ++ natChars code
  | .network msg => msg
  | .timeout => "Timeout for ".toList ++ serviceName

/-- Decidable equality for `Except`, used to compare settled promises. -/
instance exceptDecEq {e a : Type} [DecidableEq e] [DecidableEq a] :
    DecidableEq (Except e a) := fun
  | .ok x, .ok y =>
    match decEq x y with
    | isTrue h => isTrue (h ▸ rfl)
    | isFalse h => isFalse fun hh => h (Except.ok.inj hh)
  | .ok _, .error _ => isFalse Except.noConfusion
  | .error _, .ok _ => isFalse Except.noConfusion
  | .error x, .error y =>
    match decEq x y with
    | isTrue h => isTrue (h ▸ rfl)
    | isFalse h => isFalse fun hh => h (Except.error.inj hh)

/-- Observable result of one `triggerWebhook` call: the settled promise, the
number of HTTP requests issued, and the console lines printed (both
`console.log` and `console.error`, in order). -/
structure TriggerRun where
  result : Except TriggerError Bool
  attempts : Nat
  log : List Chars
deriving DecidableEq

/-- Attempt line of both variants: [name] Attempt i/max: triggering Portainer webhook. -/
def attemptLine (serviceName : Chars) (attempt maxAttempts : Nat) : Chars :=
  "[".toList ++ serviceName ++ "] Attempt ".toList ++ natChars attempt ++ "/".toList
    ++ natChars maxAttempts ++ ": triggering Portainer webhook".toList

/-- Success line (both variants). -/
def successLine (serviceName : Chars) (code : Nat) : Chars :=
  "✅ [".toList ++ serviceName ++ "] Success (HTTP ".toList ++ natChars code ++ ")".toList

/-- Retry line of the main script for a non-success HTTP status. -/
def retryHttpLine (serviceName : Chars) (code : Nat) : Chars :=
  "⚠️ [".toList ++ serviceName ++ "] Failed (HTTP ".toList ++ natChars code
    ++ "), retrying...".toList

/-- Response line of the main script (three spaces, then Response: and the
body, or the placeholder (empty) when the body is the empty string): the
response body is written to the log. -/
def responseLine (body : Chars) : Chars :=
  "   Response: ".toList ++ (if body = [] then "(empty)".toList else body)

/-- Final-failure line of the main script for a non-success HTTP status. -/
def failHttpLine (serviceName : Chars) (code : Nat) : Chars :=
  "❌ [".toList ++ serviceName ++ "] All attempts failed (HTTP ".toList
    ++ natChars code ++ ")".toList

/-- Network-error retry line of the main script (includes the error message). -/
def retryNetLine (serviceName msg : Chars) : Chars :=
  "⚠️ [".toList ++ serviceName ++ "] Network error: ".toList ++ msg
    ++ ", retrying...".toList

/-- Final network-error line of the main script. -/
def failNetLine (serviceName : Chars) (maxAttempts : Nat) (msg : Chars) : Chars :=
  "❌ [".toList ++ serviceName ++ "] Network error after ".toList
    ++ natChars maxAttempts ++ " attempts: ".toList ++ msg

/-- Timeout retry line of the main script. -/
def retryTimeoutLine (serviceName : Chars) : Chars :=
  "⚠️ [".toList ++ serviceName ++ "] Timeout, retrying...".toList

/-- Final timeout line (both variants). -/
def failTimeoutLine (serviceName : Chars) (maxAttempts : Nat) : Chars :=
  "❌ [".toList ++ serviceName ++ "] Timeout after ".toList ++ natChars maxAttempts
    ++ " attempts".toList

/-- Recursion worker for `triggerWebhook` of the main script.  The JS guard
`attempt < maxAttempts` (which decides between scheduling a retry and
rejecting) is represented by the structural counter
`attemptsLeft = maxAttempts - attempt`: the counter is zero exactly when the
guard fails (final attempt), and each retry recurses with `attempt + 1` and
the decremented counter.  Within each counter case the three branches mirror
the response handler (success check first, as in the JS), the `error`
handler and the `timeout` handler. -/
def triggerWebhookGo (oracle : Nat → Outcome) (serviceName : Chars) :
    Nat → Nat → Nat → TriggerRun
  | 0, attempt, maxAttempts =>
    match oracle attempt with
    | .status code body =>
      if code = 200 ∨ code = 204 then
        ⟨.ok true, 1, [attemptLine serviceName attempt maxAttempts, successLine serviceName code]⟩
      else
        ⟨.error (.http code), 1,
          [attemptLine serviceName attempt maxAttempts, failHttpLine serviceName code,
            responseLine body]⟩
    | .netError msg =>
      ⟨.error (.network msg), 1,
        [attemptLine serviceName attempt maxAttempts,
          failNetLine serviceName maxAttempts msg]⟩
    | .timeout =>
      ⟨.error .timeout, 1,
        [attemptLine serviceName attempt maxAttempts,
          failTimeoutLine serviceName maxAttempts]⟩
  | n + 1, attempt, maxAttempts =>
    match oracle attempt with
    | .status code body =>
      if code = 200 ∨ code = 204 then
        ⟨.ok true, 1, [attemptLine serviceName attempt maxAttempts, successLine serviceName code]⟩
      else
        let r := triggerWebhookGo oracle serviceName n (attempt + 1) maxAttempts
        ⟨r.result, r.attempts + 1,
          attemptLine serviceName attempt maxAttempts :: retryHttpLine serviceName code
            :: responseLine body :: r.log⟩
    | .netError msg =>
      let r := triggerWebhookGo oracle serviceName n (attempt + 1) maxAttempts
      ⟨r.result, r.attempts + 1,
        attemptLine serviceName attempt maxAttempts :: retryNetLine serviceName msg :: r.log⟩
    | .timeout =>
      let r := triggerWebhookGo oracle serviceName n (attempt + 1) maxAttempts
      ⟨r.result, r.attempts + 1,
        attemptLine serviceName attempt maxAttempts :: retryTimeoutLine serviceName :: r.log⟩

/-- Entry point triggerWebhook(webhookUrl, serviceName, attempt = 1,
maxAttempts = 3) of the main script, with the endpoint abstracted by
`oracle` (the outcome of
each attempt number).  The URL only selects the endpoint, so it is folded
into the oracle. -/
def triggerWebhook (oracle : Nat → Outcome) (serviceName : Chars)
    (attempt maxAttempts : Nat) : TriggerRun :=
  triggerWebhookGo oracle serviceName (maxAttempts - attempt) attempt maxAttempts

/-- One entry of the `results` array of `deploy()` / `run()`. -/
structure DeployResult where
  service : Chars
  success : Bool
  error : Option Chars
deriving DecidableEq

/-- Summary object returned by `deploy()` of the main script.  Fields
absent from a given JS return object (`failed`, `results`, `reason`) are
modelled as `none`. -/
structure DeploySummary where
  success : Bool
  deployed : List Chars
  failed : Option (List Chars)
  results : Option (List DeployResult)
  skipped : Bool
  reason : Option Chars
deriving DecidableEq

/-- Skip reason returned by the skip branch of `deploy()`. -/
def skipReasonMsg : Chars :=
  "Cannot determine changed files (non-linear git history)".toList

/-- The per-service `for` loop of `deploy()`: resolve the secret, dispatch
the webhook, catch any error into a failed `DeployResult`.  Also returns
the list of services for which a webhook dispatch was actually attempted. -/
def deployLoop (env : Env) (oracle : Chars → Nat → Outcome) :
    List Chars → List DeployResult × List Chars
  | [] => ([], [])
  | serviceName :: rest =>
    match getWebhookUrl env serviceName with
    | .error e =>
      (⟨serviceName, false, some (webhookErrMsg e)⟩ :: (deployLoop env oracle rest).1,
        (deployLoop env oracle rest).2)
    | .ok _url =>
      ((match (triggerWebhook (oracle serviceName) serviceName 1 3).result with
        | .ok _ => (⟨serviceName, true, none⟩ : DeployResult)
        | .error te => ⟨serviceName, false, some (triggerErrMsg serviceName te)⟩)
          :: (deployLoop env oracle rest).1,
        serviceName :: (deployLoop env oracle rest).2)

/-- `deploy()` of the main script, from the point where change detection has
produced its tri-state result (`none` = undetermined, `some files` =
definite list).  Returns the summary and the list of services for which a
webhook dispatch was attempted. -/
def deploy (changedFiles : Option (List Chars)) (env : Env)
    (oracle : Chars → Nat → Outcome) : DeploySummary × List Chars :=
  match changedFiles with
  | none =>
    (⟨true, [], none, none, true, some skipReasonMsg⟩, [])
  | some files =>
    let serviceNames := extractServiceNames files
    if serviceNames = [] then
      (⟨true, [], none, none, false, none⟩, [])
    else
      let results := (deployLoop env oracle serviceNames).1
      let successful := results.filter (·.success)
      let failed := results.filter (fun r => !r.success)
      (⟨failed.isEmpty, successful.map (·.service), some (failed.map (·.service)),
        some results, false, none⟩, (deployLoop env oracle serviceNames).2)

/-- Erase the response body from an attempt outcome, keeping the status
code, the network error message, or the timeout marker. -/
def outcomeShape : Outcome → Outcome
  | .status code _ => .status code []
  | .netError msg => .netError msg
  | .timeout => .timeout

/-- Two endpoints whose runs differ only in the response bodies returned
(same statuses, same network errors, same timeouts, attempt by attempt). -/
def SameUpToBody (oracle oracle' : Nat → Outcome) : Prop :=
  ∀ i, outcomeShape (oracle i) = outcomeShape (oracle' i)

namespace EnvVariant

/-- Missing-secret message of the environment-variable variant (identical to
the main one except that the period is followed directly by the newline,
without the trailing space of the main script). -/
def missingSecretMsg (secretName serviceName : Chars) : Chars :=
  "Secret ".toList ++ secretName ++ " not found for service ".toList
    ++ [squote] ++ serviceName ++ [squote] ++ ".".toList ++ ['\n']
    ++ "1. Enable webhook in Portainer UI for ".toList ++ [squote] ++ serviceName
    ++ [squote] ++ " service".toList ++ ['\n']
    ++ "2. Copy webhook URL from Portainer".toList ++ ['\n']
    ++ "3. Add to GitHub secrets with name: ".toList ++ secretName ++ ['\n']
    ++ "4. Update .github/workflows/portainer-deploy.yml to pass the secret as environment variable".toList

/-- The only error thrown by `getWebhookUrl` of the variant. -/
inductive WebhookError where
  | missingSecret (msg : Chars)
deriving DecidableEq

/-- Function getWebhookUrl(serviceName) of the environment-variable variant: same
lookup and missing-secret check as the main script, but NO scheme
validation — any nonempty value is returned as-is. -/
def getWebhookUrl (env : Env) (serviceName : Chars) : Except WebhookError Chars :=
  match env (secretKeyChars serviceName) with
  | none => .error (.missingSecret (missingSecretMsg (secretKeyChars serviceName) serviceName))
  | some webhookUrl =>
    if webhookUrl = [] then
      .error (.missingSecret (missingSecretMsg (secretKeyChars serviceName) serviceName))
    else .ok webhookUrl

/-- Terminal rejections of the variant: HTTP <code>, the constant
Network error, or the constant Request timeout — deliberately free of
response bodies and network error details. -/
inductive TriggerError where
  | http (code : Nat)
  | network
  | timeout
deriving DecidableEq

/-- Terminal rejection of the variant determined by the final attempt. -/
def lastError : Outcome → TriggerError
  | .status code _ => .http code
  | .netError _ => .network
  | .timeout => .timeout

/-- Message texts of the rejections in the variant. -/
def triggerErrMsg : TriggerError → Chars
  | .http code => "HTTP ".toList ++ natChars code
  | .network => "Network error".toList
  | .timeout => "Request timeout".toList

/-- Observable result of one variant `triggerWebhook` call. -/
structure TriggerRun where
  result : Except TriggerError Bool
  attempts : Nat
  log : List Chars
deriving DecidableEq

/-- Variant retry line for a non-success HTTP status (no response body). -/
def retryHttpLine (serviceName : Chars) (code : Nat) : Chars :=
  "🔄 [".toList ++ serviceName ++ "] Retrying (HTTP ".toList ++ natChars code
    ++ ")...".toList

/-- Variant final-failure line for a non-success HTTP status. -/
def failHttpLine (serviceName : Chars) (maxAttempts code : Nat) : Chars :=
  "❌ [".toList ++ serviceName ++ "] Failed after ".toList ++ natChars maxAttempts
    ++ " attempts (HTTP ".toList ++ natChars code ++ ")".toList

/-- Variant network-error retry line (no `error.message`). -/
def retryNetLine (serviceName : Chars) : Chars :=
  "🔄 [".toList ++ serviceName ++ "] Network error, retrying...".toList

/-- Variant final network-error line (no `error.message`). -/
def failNetLine (serviceName : Chars) (maxAttempts : Nat) : Chars :=
  "❌ [".toList ++ serviceName ++ "] Network error after ".toList
    ++ natChars maxAttempts ++ " attempts".toList

/-- Variant timeout retry line. -/
def retryTimeoutLine (serviceName : Chars) : Chars :=
  "🔄 [".toList ++ serviceName ++ "] Timeout, retrying...".toList

/-- Recursion worker for `triggerWebhook` of the variant; same structural
counter representation of the guard as in the main script
(zero counter = final attempt).  Note: no response body or network error
message reaches any log line or rejection. -/
def triggerWebhookGo (oracle : Nat → Outcome) (serviceName : Chars) :
    Nat → Nat → Nat → TriggerRun
  | 0, attempt, maxAttempts =>
    match oracle attempt with
    | .status code _body =>
      if code = 200 ∨ code = 204 then
        ⟨.ok true, 1, [attemptLine serviceName attempt maxAttempts, successLine serviceName code]⟩
      else
        ⟨.error (.http code), 1,
          [attemptLine serviceName attempt maxAttempts,
            failHttpLine serviceName maxAttempts code]⟩
    | .netError _msg =>
      ⟨.error .network, 1,
        [attemptLine serviceName attempt maxAttempts,
          failNetLine serviceName maxAttempts]⟩
    | .timeout =>
      ⟨.error .timeout, 1,
        [attemptLine serviceName attempt maxAttempts,
          failTimeoutLine serviceName maxAttempts]⟩
  | n + 1, attempt, maxAttempts =>
    match oracle attempt with
    | .status code _body =>
      if code = 200 ∨ code = 204 then
        ⟨.ok true, 1, [attemptLine serviceName attempt maxAttempts, successLine serviceName code]⟩
      else
        let r := triggerWebhookGo oracle serviceName n (attempt + 1) maxAttempts
        ⟨r.result, r.attempts + 1,
          attemptLine serviceName attempt maxAttempts
            :: retryHttpLine serviceName code :: r.log⟩
    | .netError _msg =>
      let r := triggerWebhookGo oracle serviceName n (attempt + 1) maxAttempts
      ⟨r.result, r.attempts + 1,
        attemptLine serviceName attempt maxAttempts :: retryNetLine serviceName :: r.log⟩
    | .timeout =>
      let r := triggerWebhookGo oracle serviceName n (attempt + 1) maxAttempts
      ⟨r.result, r.attempts + 1,
        attemptLine serviceName attempt maxAttempts :: retryTimeoutLine serviceName :: r.log⟩

/-- Entry point triggerWebhook(webhookUrl, serviceName, 1, 3) of the variant. -/
def triggerWebhook (oracle : Nat → Outcome) (serviceName : Chars)
    (attempt maxAttempts : Nat) : TriggerRun :=
  triggerWebhookGo oracle serviceName (maxAttempts - attempt) attempt maxAttempts

/-- Summary object returned by run() of the variant.  The two early
returns carry `skipped: []` (an empty array, not a boolean) and no `failed`
field; the final summary carries `failed` and no `skipped` field.  Absent
fields are `none`. -/
structure RunSummary where
  deployed : List Chars
  skipped : Option (List Chars)
  failed : Option (List Chars)
  success : Bool
deriving DecidableEq

/-- The per-service `for` loop of `run()`. -/
def runLoop (env : Env) (oracle : Chars → Nat → Outcome) :
    List Chars → List DeployResult
  | [] => []
  | serviceName :: rest =>
    (match getWebhookUrl env serviceName with
      | .error e =>
        match e with
        | .missingSecret m => (⟨serviceName, false, some m⟩ : DeployResult)
      | .ok _url =>
        match (triggerWebhook (oracle serviceName) serviceName 1 3).result with
        | .ok _ => ⟨serviceName, true, none⟩
        | .error te => ⟨serviceName, false, some (triggerErrMsg te)⟩)
      :: runLoop env oracle rest

/-- JS String.split of allChangedFiles on a single space character,
keeping empty segments. -/
def splitOnSpace : Chars → List Chars
  | [] => [[]]
  | c :: rest =>
    match splitOnSpace rest with
    | [] => [[]]
    | s :: ss => if c = ' ' then [] :: s :: ss else (c :: s) :: ss

/-- Entry point run() of the environment-variable variant.  An unset
ALL_CHANGED_FILES is collapsed to the empty string (the JS or-default);
an empty value or an empty extracted service set returns the early no-op
summary, otherwise every service is processed in sequence. -/
def run (allChangedFilesEnv : Option Chars) (env : Env)
    (oracle : Chars → Nat → Outcome) : RunSummary :=
  let allChangedFiles := match allChangedFilesEnv with | none => [] | some s => s
  if allChangedFiles = [] then ⟨[], some [], none, true⟩
  else
    let changedFiles := splitOnSpace allChangedFiles
    let serviceNames := extractServiceNames changedFiles
    if serviceNames = [] then ⟨[], some [], none, true⟩
    else
      let results := runLoop env oracle serviceNames
      let deployed := (results.filter (·.success)).map (·.service)
      let failed := results.filter (fun r => !r.success)
      ⟨deployed, none, some (failed.map (·.service)), failed.isEmpty⟩

end EnvVariant

theorem drop_length_takeWhile (q : Char → Bool) (t : Chars) :
    t.drop (t.takeWhile q).length = t.dropWhile q := by
  nth_rewrite 2 [← List.takeWhile_append_dropWhile q t]
  rw [List.drop_left]

theorem matchServicePath_eq_some_iff (filePath name : Chars) :
    matchServicePath filePath = some name ↔ isServiceCapture filePath name := by
  constructor
  · intro h
    unfold matchServicePath at h
    by_cases hp : (servicesPath ++ ['/']).isPrefixOf filePath
    · rw [if_pos hp] at h
      rw [ List.isPrefixOf_iff_prefix] at hp
      obtain ⟨t, ht⟩ := hp
      subst ht
      rw [List.drop_left] at h
      by_cases hn : t.takeWhile (· != '/') = []
      · rw [if_pos hn] at h; exact absurd h (by simp)
      · rw [if_neg hn] at h
        by_cases hd : t.drop (t.takeWhile (· != '/')).length = composeTail
        · rw [if_pos hd] at h
          have hname : name = t.takeWhile (· != '/') := by
            have := h; simp at this; exact this.symm
          subst hname
          rw [drop_length_takeWhile] at hd
          have ht : t = t.takeWhile (· != '/') ++ composeTail := by
            rw [← hd, List.takeWhile_append_dropWhile]
          refine ⟨?_, hn, ?_⟩
          · nth_rewrite 1 [ht]; simp [List.append_assoc]
          · intro hmem
            have := List.mem_takeWhile_imp hmem
            simp at this
        · rw [if_neg hd] at h; exact absurd h (by simp)
    · rw [if_neg hp] at h; exact absurd h (by simp)
  · rintro ⟨hpath, hne, hnoslash⟩
    subst hpath
    have hall : ∀ c ∈ name, (c != '/') = true := by
      intro c hc
      simp only [bne_iff_ne, ne_eq]
      intro hcontra; subst hcontra; exact hnoslash hc
    have hpre : (servicesPath ++ ['/']).isPrefixOf
        (servicesPath ++ ['/'] ++ name ++ composeTail) = true := by
      rw [ List.isPrefixOf_iff_prefix]
      exact ⟨name ++ composeTail, by simp⟩
    have hdrop : (servicesPath ++ ['/'] ++ name ++ composeTail).drop
        (servicesPath ++ ['/']).length = name ++ composeTail := by
      rw [show servicesPath ++ ['/'] ++ name ++ composeTail
          = (servicesPath ++ ['/']) ++ (name ++ composeTail) by simp]
      exact List.drop_left _ _
    have htake : (name ++ composeTail).takeWhile (· != '/') = name := by
      rw [List.takeWhile_append_of_pos hall]
      simp [composeTail, List.takeWhile]
    have hdrop2 : (name ++ composeTail).drop name.length = composeTail :=
      List.drop_left _ _
    unfold matchServicePath
    simp only [hpre, if_true, hdrop, htake, hdrop2, if_pos, hne, ite_self,
      if_neg, reduceIte]

theorem mem_extractStep (acc : List Chars) (p n : Chars) :
    n ∈ extractStep acc p ↔ n ∈ acc ∨ matchServicePath p = some n := by
  unfold extractStep
  cases hm : matchServicePath p with
  | none => simp
  | some m =>
    by_cases hin : m ∈ acc
    · simp only [if_pos hin]
      constructor
      · exact Or.inl
      · rintro (h | h)
        · exact h
        · simp at h; subst h; exact hin
    · simp only [if_neg hin, List.mem_append, List.mem_singleton,
        Option.some.injEq]
      constructor
      · rintro (h | h)
        · exact Or.inl h
        · exact Or.inr h.symm
      · rintro (h | h)
        · exact Or.inl h
        · exact Or.inr h.symm

theorem mem_foldl_extractStep (filePaths : List Chars) :
    ∀ (acc : List Chars) (n : Chars),
      n ∈ filePaths.foldl extractStep acc
        ↔ n ∈ acc ∨ ∃ p ∈ filePaths, matchServicePath p = some n := by
  induction filePaths with
  | nil => simp
  | cons p ps ih =>
    intro acc n
    rw [List.foldl_cons, ih, mem_extractStep]
    simp only [List.mem_cons]
    constructor
    · rintro ((h | h) | ⟨q, hq, hqn⟩)
      · exact Or.inl h
      · exact Or.inr ⟨p, Or.inl rfl, h⟩
      · exact Or.inr ⟨q, Or.inr hq, hqn⟩
    · rintro (h | ⟨q, hq | hq, hqn⟩)
      · exact Or.inl (Or.inl h)
      · subst hq; exact Or.inl (Or.inr hqn)
      · exact Or.inr ⟨q, hq, hqn⟩

theorem nodup_foldl_extractStep (filePaths : List Chars) :
    ∀ acc : List Chars, acc.Nodup → (filePaths.foldl extractStep acc).Nodup := by
  induction filePaths with
  | nil => intro acc h; simpa using h
  | cons p ps ih =>
    intro acc hacc
    rw [List.foldl_cons]
    apply ih
    cases hm : matchServicePath p with
    | none => simpa only [extractStep, hm] using hacc
    | some m =>
      simp only [extractStep, hm]
      by_cases hin : m ∈ acc
      · rw [if_pos hin]; exact hacc
      · rw [if_neg hin]
        rw [List.nodup_append]
        refine ⟨hacc, List.nodup_singleton m, ?_⟩
        intro x hx hmem
        simp only [List.mem_singleton] at hmem
        subst hmem
        exact hin hx

/-- C1.  `extractServiceNames` returns the deduplicated set of captures of
the anchored pattern `^services/([^/]+)/compose\.yaml$`: the result has no
duplicates, its members are exactly the `<name>` captures of matching input
paths (wrong head, wrong filename or extra depth never contribute),
permuting the input does not change membership, and the empty input or an
input with no matching path yields the empty result. -/
theorem extractServiceNames_spec (filePaths : List Chars) :
    (extractServiceNames filePaths).Nodup
    ∧ (∀ n, n ∈ extractServiceNames filePaths ↔ ∃ p ∈ filePaths, isServiceCapture p n)
    ∧ (∀ filePaths' : List Chars, filePaths.Perm filePaths' →
        ∀ n, (n ∈ extractServiceNames filePaths ↔ n ∈ extractServiceNames filePaths'))
    ∧ extractServiceNames [] = []
    ∧ ((∀ p ∈ filePaths, ∀ n, ¬ isServiceCapture p n) → extractServiceNames filePaths = []) := by
  refine ⟨nodup_foldl_extractStep filePaths [] (by simp), ?_, ?_, rfl, ?_⟩
  · intro n
    rw [extractServiceNames, mem_foldl_extractStep]
    simp only [List.not_mem_nil, false_or]
    constructor
    · rintro ⟨p, hp, hm⟩
      exact ⟨p, hp, (matchServicePath_eq_some_iff p n).mp hm⟩
    · rintro ⟨p, hp, hm⟩
      exact ⟨p, hp, (matchServicePath_eq_some_iff p n).mpr hm⟩
  · intro filePaths' hperm n
    rw [extractServiceNames, extractServiceNames,
      mem_foldl_extractStep, mem_foldl_extractStep]
    constructor
    · rintro (h | ⟨p, hp, hm⟩)
      · simp at h
      · exact Or.inr ⟨p, hperm.mem_iff.mp hp, hm⟩
    · rintro (h | ⟨p, hp, hm⟩)
      · simp at h
      · exact Or.inr ⟨p, hperm.mem_iff.mpr hp, hm⟩
  · intro hno
    rcases hres : extractServiceNames filePaths with _ | ⟨n, rest⟩
    · rfl
    · exfalso
      have hmem : n ∈ extractServiceNames filePaths := by rw [hres]; simp
      rw [extractServiceNames, mem_foldl_extractStep] at hmem
      rcases hmem with h | ⟨p, hp, hm⟩
      · simp at h
      · exact hno p hp n ((matchServicePath_eq_some_iff p n).mp hm)

/-- Witness for `extractServiceNames_spec` on the test script fixtures:
permutation invariance on a concrete two-element swap, and emptiness on the
all-non-matching input `[README.md, Dockerfile, .gitignore]`. -/
theorem extractServiceNames_spec_witness :
    (∀ n, (n ∈ extractServiceNames
        ["services/hello/compose.yaml".toList, "services/adguard/compose.yaml".toList]
      ↔ n ∈ extractServiceNames
        ["services/adguard/compose.yaml".toList, "services/hello/compose.yaml".toList]))
    ∧ extractServiceNames ["README.md".toList, "Dockerfile".toList, ".gitignore".toList] = [] := by
  constructor
  · exact (extractServiceNames_spec _).2.2.1 _
      (List.Perm.swap ("services/adguard/compose.yaml".toList)
        ("services/hello/compose.yaml".toList) [])
  · refine (extractServiceNames_spec _).2.2.2.2 ?_
    intro p hp n hcap
    have hm := (matchServicePath_eq_some_iff p n).mpr hcap
    have hnone : matchServicePath p = none := by
      fin_cases hp <;> decide
    rw [hnone] at hm
    exact Option.noConfusion hm

theorem go_result_success {oracle : Nat → Outcome} {attempt : Nat}
    (serviceName : Chars) (left maxAttempts : Nat)
    (h : isSuccessOutcome (oracle attempt) = true) :
    (triggerWebhookGo oracle serviceName left attempt maxAttempts).result = .ok true
    ∧ (triggerWebhookGo oracle serviceName left attempt maxAttempts).attempts = 1 := by
  cases ho : oracle attempt with
  | status code body =>
    rw [ho] at h
    simp only [isSuccessOutcome, Bool.or_eq_true, beq_iff_eq] at h
    cases left <;> simp [triggerWebhookGo, ho, if_pos h]
  | netError msg => rw [ho] at h; simp [isSuccessOutcome] at h
  | timeout => rw [ho] at h; simp [isSuccessOutcome] at h

theorem go_result_retry {oracle : Nat → Outcome} {attempt : Nat}
    (serviceName : Chars) (n maxAttempts : Nat)
    (h : isSuccessOutcome (oracle attempt) = false) :
    (triggerWebhookGo oracle serviceName (n + 1) attempt maxAttempts).result
      = (triggerWebhookGo oracle serviceName n (attempt + 1) maxAttempts).result
    ∧ (triggerWebhookGo oracle serviceName (n + 1) attempt maxAttempts).attempts
      = (triggerWebhookGo oracle serviceName n (attempt + 1) maxAttempts).attempts + 1 := by
  cases ho : oracle attempt with
  | status code body =>
    rw [ho] at h
    simp only [isSuccessOutcome, Bool.or_eq_false_iff, beq_eq_false_iff_ne, ne_eq] at h
    have hc : ¬ (code = 200 ∨ code = 204) := by
      rintro (h200 | h204)
      · exact h.1 h200
      · exact h.2 h204
    simp [triggerWebhookGo, ho, if_neg hc]
  | netError msg => simp [triggerWebhookGo, ho]
  | timeout => simp [triggerWebhookGo, ho]

theorem go_result_last {oracle : Nat → Outcome} {attempt : Nat}
    (serviceName : Chars) (maxAttempts : Nat)
    (h : isSuccessOutcome (oracle attempt) = false) :
    (triggerWebhookGo oracle serviceName 0 attempt maxAttempts).result
      = .error (lastError (oracle attempt))
    ∧ (triggerWebhookGo oracle serviceName 0 attempt maxAttempts).attempts = 1 := by
  cases ho : oracle attempt with
  | status code body =>
    rw [ho] at h
    simp only [isSuccessOutcome, Bool.or_eq_false_iff, beq_eq_false_iff_ne, ne_eq] at h
    have hc : ¬ (code = 200 ∨ code = 204) := by
      rintro (h200 | h204)
      · exact h.1 h200
      · exact h.2 h204
    simp [triggerWebhookGo, ho, if_neg hc, lastError]
  | netError msg => simp [triggerWebhookGo, ho, lastError]
  | timeout => simp [triggerWebhookGo, ho, lastError]

/-- C2.  `triggerWebhook` with `maxAttempts = 3` starting at attempt 1:
it succeeds exactly when one of the first 3 attempts yields an HTTP 200 or
204; on the first successful attempt `i` it stops, having made exactly `i`
requests; and when no attempt succeeds it makes exactly 3 requests and
rejects with the failure determined by the final attempt — the last HTTP
status when the final attempt produced one, otherwise the network error or
a timeout indicator. -/
theorem triggerWebhook_retry_spec (oracle : Nat → Outcome) (serviceName : Chars) :
    ((triggerWebhook oracle serviceName 1 3).result = .ok true
      ↔ ∃ i, 1 ≤ i ∧ i ≤ 3 ∧ isSuccessOutcome (oracle i) = true)
    ∧ (∀ i, 1 ≤ i → i ≤ 3 → isSuccessOutcome (oracle i) = true →
        (∀ j, 1 ≤ j → j < i → isSuccessOutcome (oracle j) = false) →
        (triggerWebhook oracle serviceName 1 3).result = .ok true
        ∧ (triggerWebhook oracle serviceName 1 3).attempts = i)
    ∧ ((∀ i, 1 ≤ i → i ≤ 3 → isSuccessOutcome (oracle i) = false) →
        (triggerWebhook oracle serviceName 1 3).attempts = 3
        ∧ (triggerWebhook oracle serviceName 1 3).result
            = .error (lastError (oracle 3))) := by
  have hw : triggerWebhook oracle serviceName 1 3
      = triggerWebhookGo oracle serviceName 2 1 3 := rfl
  refine ⟨?_, ?_, ?_⟩
  · rw [hw]
    constructor
    · intro h
      by_cases s1 : isSuccessOutcome (oracle 1) = true
      · exact ⟨1, le_refl 1, by omega, s1⟩
      · rw [Bool.not_eq_true] at s1
        by_cases s2 : isSuccessOutcome (oracle 2) = true
        · exact ⟨2, by omega, by omega, s2⟩
        · rw [Bool.not_eq_true] at s2
          by_cases s3 : isSuccessOutcome (oracle 3) = true
          · exact ⟨3, by omega, le_refl 3, s3⟩
          · rw [Bool.not_eq_true] at s3
            exfalso
            rw [(go_result_retry serviceName 1 3 s1).1,
              (go_result_retry serviceName 0 3 s2).1,
              (go_result_last serviceName 3 s3).1] at h
            exact Except.noConfusion h
    · rintro ⟨i, h1, h3, hs⟩
      by_cases s1 : isSuccessOutcome (oracle 1) = true
      · exact (go_result_success serviceName 2 3 s1).1
      · rw [Bool.not_eq_true] at s1
        rw [(go_result_retry serviceName 1 3 s1).1]
        by_cases s2 : isSuccessOutcome (oracle 2) = true
        · exact (go_result_success serviceName 1 3 s2).1
        · rw [Bool.not_eq_true] at s2
          rw [(go_result_retry serviceName 0 3 s2).1]
          by_cases s3 : isSuccessOutcome (oracle 3) = true
          · exact (go_result_success serviceName 0 3 s3).1
          · rw [Bool.not_eq_true] at s3
            interval_cases i
            · rw [s1] at hs; exact Bool.noConfusion hs
            · rw [s2] at hs; exact Bool.noConfusion hs
            · rw [s3] at hs; exact Bool.noConfusion hs
  · intro i h1 h3 hs hmin
    rw [hw]
    interval_cases i
    · exact go_result_success serviceName 2 3 hs
    · have s1 : isSuccessOutcome (oracle 1) = false := hmin 1 (le_refl 1) (by omega)
      refine ⟨?_, ?_⟩
      · rw [(go_result_retry serviceName 1 3 s1).1]
        exact (go_result_success serviceName 1 3 hs).1
      · rw [(go_result_retry serviceName 1 3 s1).2,
          (go_result_success serviceName 1 3 hs).2]
    · have s1 : isSuccessOutcome (oracle 1) = false := hmin 1 (le_refl 1) (by omega)
      have s2 : isSuccessOutcome (oracle 2) = false := hmin 2 (by omega) (by omega)
      refine ⟨?_, ?_⟩
      · rw [(go_result_retry serviceName 1 3 s1).1,
          (go_result_retry serviceName 0 3 s2).1]
        exact (go_result_success serviceName 0 3 hs).1
      · rw [(go_result_retry serviceName 1 3 s1).2,
          (go_result_retry serviceName 0 3 s2).2,
          (go_result_success serviceName 0 3 hs).2]
  · intro hall
    have s1 : isSuccessOutcome (oracle 1) = false := hall 1 (le_refl 1) (by omega)
    have s2 : isSuccessOutcome (oracle 2) = false := hall 2 (by omega) (by omega)
    have s3 : isSuccessOutcome (oracle 3) = false := hall 3 (by omega) (le_refl 3)
    rw [hw]
    refine ⟨?_, ?_⟩
    · rw [(go_result_retry serviceName 1 3 s1).2,
        (go_result_retry serviceName 0 3 s2).2,
        (go_result_last serviceName 3 s3).2]
    · rw [(go_result_retry serviceName 1 3 s1).1,
        (go_result_retry serviceName 0 3 s2).1,
        (go_result_last serviceName 3 s3).1]

/-- Witness for `triggerWebhook_retry_spec`: an endpoint that fails twice
with HTTP 500 and then returns 200 succeeds after exactly 3 attempts, and
an endpoint that always returns 500 fails after exactly 3 attempts with the
last status surfaced. -/
theorem triggerWebhook_retry_spec_witness :
    ((triggerWebhook (fun i => if i ≤ 2 then .status 500 [] else .status 200 [])
        ("svc".toList) 1 3).result = .ok true
      ∧ (triggerWebhook (fun i => if i ≤ 2 then .status 500 [] else .status 200 [])
        ("svc".toList) 1 3).attempts = 3)
    ∧ ((triggerWebhook (fun _ => .status 500 []) ("svc".toList) 1 3).attempts = 3
      ∧ (triggerWebhook (fun _ => .status 500 []) ("svc".toList) 1 3).result
          = .error (.http 500)) := by
  constructor
  · exact (triggerWebhook_retry_spec
        (fun i => if i ≤ 2 then .status 500 [] else .status 200 []) ("svc".toList)).2.1
      3 (by omega) (le_refl 3) (by decide)
      (by intro j h1 hj; interval_cases j <;> decide)
  · have h := (triggerWebhook_retry_spec (fun _ => .status 500 []) ("svc".toList)).2.2
      (by intro i h1 h3; decide)
    exact ⟨h.1, h.2⟩

theorem go_body_independent (oracle oracle' : Nat → Outcome) (serviceName : Chars)
    (hsh : SameUpToBody oracle oracle') :
    ∀ left attempt maxAttempts,
      (triggerWebhookGo oracle serviceName left attempt maxAttempts).result
        = (triggerWebhookGo oracle' serviceName left attempt maxAttempts).result
      ∧ (triggerWebhookGo oracle serviceName left attempt maxAttempts).attempts
        = (triggerWebhookGo oracle' serviceName left attempt maxAttempts).attempts := by
  intro left
  induction left with
  | zero =>
    intro attempt maxAttempts
    have h := hsh attempt
    cases ho : oracle attempt <;> cases ho' : oracle' attempt <;>
      rw [ho, ho'] at h <;> simp [outcomeShape] at h
    case status.status code body code' body' =>
      subst h
      by_cases hc : code = 200 ∨ code = 204
      · refine ⟨?_, ?_⟩ <;> simp [triggerWebhookGo, ho, ho', if_pos hc]
      · refine ⟨?_, ?_⟩ <;> simp [triggerWebhookGo, ho, ho', if_neg hc]
    case netError.netError msg msg' =>
      subst h
      refine ⟨?_, ?_⟩ <;> simp [triggerWebhookGo, ho, ho']
    case timeout.timeout =>
      refine ⟨?_, ?_⟩ <;> simp [triggerWebhookGo, ho, ho']
  | succ n ih =>
    intro attempt maxAttempts
    have h := hsh attempt
    have hi := ih (attempt + 1) maxAttempts
    cases ho : oracle attempt <;> cases ho' : oracle' attempt <;>
      rw [ho, ho'] at h <;> simp [outcomeShape] at h
    case status.status code body code' body' =>
      subst h
      by_cases hc : code = 200 ∨ code = 204
      · refine ⟨?_, ?_⟩ <;> simp [triggerWebhookGo, ho, ho', if_pos hc]
      · refine ⟨?_, ?_⟩ <;> simp [triggerWebhookGo, ho, ho', if_neg hc, hi.1, hi.2]
    case netError.netError msg msg' =>
      subst h
      refine ⟨?_, ?_⟩ <;> simp [triggerWebhookGo, ho, ho', hi.1, hi.2]
    case timeout.timeout =>
      refine ⟨?_, ?_⟩ <;> simp [triggerWebhookGo, ho, ho', hi.1, hi.2]

theorem envGo_body_independent (oracle oracle' : Nat → Outcome) (serviceName : Chars)
    (hsh : SameUpToBody oracle oracle') :
    ∀ left attempt maxAttempts,
      EnvVariant.triggerWebhookGo oracle serviceName left attempt maxAttempts
        = EnvVariant.triggerWebhookGo oracle' serviceName left attempt maxAttempts := by
  intro left
  induction left with
  | zero =>
    intro attempt maxAttempts
    have h := hsh attempt
    cases ho : oracle attempt <;> cases ho' : oracle' attempt <;>
      rw [ho, ho'] at h <;> simp [outcomeShape] at h
    case status.status code body code' body' =>
      subst h
      by_cases hc : code = 200 ∨ code = 204
      · simp [EnvVariant.triggerWebhookGo, ho, ho', if_pos hc]
      · simp [EnvVariant.triggerWebhookGo, ho, ho', if_neg hc]
    case netError.netError msg msg' =>
      simp [EnvVariant.triggerWebhookGo, ho, ho']
    case timeout.timeout =>
      simp [EnvVariant.triggerWebhookGo, ho, ho']
  | succ n ih =>
    intro attempt maxAttempts
    have h := hsh attempt
    have hi := ih (attempt + 1) maxAttempts
    cases ho : oracle attempt <;> cases ho' : oracle' attempt <;>
      rw [ho, ho'] at h <;> simp [outcomeShape] at h
    case status.status code body code' body' =>
      subst h
      by_cases hc : code = 200 ∨ code = 204
      · simp [EnvVariant.triggerWebhookGo, ho, ho', if_pos hc]
      · simp [EnvVariant.triggerWebhookGo, ho, ho', if_neg hc, hi]
    case netError.netError msg msg' =>
      simp [EnvVariant.triggerWebhookGo, ho, ho', hi]
    case timeout.timeout =>
      simp [EnvVariant.triggerWebhookGo, ho, ho', hi]

/-- C5 (amended).  Response bodies never reach the error surfaced to the
caller in either script variant: two endpoints differing only in response
bodies settle `triggerWebhook` identically (same rejection, same number of
attempts), and in the environment-variable variant even the log output is
identical.  Against an endpoint that always answers HTTP 500, the main
script rejects after exactly `maxAttempts = 3` attempts with an error
carrying only the status 500 (no body).  The main script's LOG, however, is
not body-free — see the counterexample theorem. -/
theorem triggerWebhook_body_independence :
    (∀ (oracle oracle' : Nat → Outcome) (serviceName : Chars) (attempt maxAttempts : Nat),
      SameUpToBody oracle oracle' →
      (triggerWebhook oracle serviceName attempt maxAttempts).result
        = (triggerWebhook oracle' serviceName attempt maxAttempts).result
      ∧ (triggerWebhook oracle serviceName attempt maxAttempts).attempts
        = (triggerWebhook oracle' serviceName attempt maxAttempts).attempts)
    ∧ (∀ (oracle oracle' : Nat → Outcome) (serviceName : Chars) (attempt maxAttempts : Nat),
      SameUpToBody oracle oracle' →
      EnvVariant.triggerWebhook oracle serviceName attempt maxAttempts
        = EnvVariant.triggerWebhook oracle' serviceName attempt maxAttempts)
    ∧ (∀ (oracle : Nat → Outcome) (serviceName : Chars),
      (∀ i, ∃ body, oracle i = .status 500 body) →
      (triggerWebhook oracle serviceName 1 3).result = .error (.http 500)
      ∧ (triggerWebhook oracle serviceName 1 3).attempts = 3) := by
  refine ⟨?_, ?_, ?_⟩
  · intro oracle oracle' serviceName attempt maxAttempts hsh
    exact go_body_independent oracle oracle' serviceName hsh _ attempt maxAttempts
  · intro oracle oracle' serviceName attempt maxAttempts hsh
    exact envGo_body_independent oracle oracle' serviceName hsh _ attempt maxAttempts
  · intro oracle serviceName hall
    have hfail : ∀ i, isSuccessOutcome (oracle i) = false := by
      intro i
      obtain ⟨body, hb⟩ := hall i
      rw [hb]; simp [isSuccessOutcome]
    have hlast : lastError (oracle 3) = .http 500 := by
      obtain ⟨body, hb⟩ := hall 3
      rw [hb]; simp [lastError]
    have hw : triggerWebhook oracle serviceName 1 3
        = triggerWebhookGo oracle serviceName 2 1 3 := rfl
    rw [hw]
    refine ⟨?_, ?_⟩
    · rw [(go_result_retry serviceName 1 3 (hfail 1)).1,
        (go_result_retry serviceName 0 3 (hfail 2)).1,
        (go_result_last serviceName 3 (hfail 3)).1, hlast]
    · rw [(go_result_retry serviceName 1 3 (hfail 1)).2,
        (go_result_retry serviceName 0 3 (hfail 2)).2,
        (go_result_last serviceName 3 (hfail 3)).2]

/-- C5 counterexample: the main script writes the response body into its
log (`   Response: ...`) on every failed attempt, so two runs that differ
only in the response body produce different log output, refuting the claim
that the body appears nowhere in the logs. -/
theorem triggerWebhook_main_logs_body :
    SameUpToBody (fun _ => .status 500 ("AAAA".toList)) (fun _ => .status 500 ("BBBB".toList))
    ∧ (triggerWebhook (fun _ => .status 500 ("AAAA".toList)) ("svc".toList) 1 3).log
        ≠ (triggerWebhook (fun _ => .status 500 ("BBBB".toList)) ("svc".toList) 1 3).log
    ∧ responseLine ("AAAA".toList)
        ∈ (triggerWebhook (fun _ => .status 500 ("AAAA".toList)) ("svc".toList) 1 3).log := by
  exact ⟨fun i => rfl, by decide, by decide⟩

/-- Witness for `triggerWebhook_body_independence` at two concrete
endpoints that always answer HTTP 500 and differ only in the body. -/
theorem triggerWebhook_body_independence_witness :
    (triggerWebhook (fun _ => .status 500 ("XX".toList)) ("svc".toList) 1 3).result
      = (triggerWebhook (fun _ => .status 500 ("YY".toList)) ("svc".toList) 1 3).result
    ∧ EnvVariant.triggerWebhook (fun _ => .status 500 ("XX".toList)) ("svc".toList) 1 3
      = EnvVariant.triggerWebhook (fun _ => .status 500 ("YY".toList)) ("svc".toList) 1 3
    ∧ (triggerWebhook (fun _ => .status 500 ("XX".toList)) ("svc".toList) 1 3).result
      = .error (.http 500) := by
  refine ⟨(triggerWebhook_body_independence.1 _ _ ("svc".toList) 1 3 (fun i => rfl)).1,
    triggerWebhook_body_independence.2.1 _ _ ("svc".toList) 1 3 (fun i => rfl),
    (triggerWebhook_body_independence.2.2 _ ("svc".toList)
      (fun i => ⟨"XX".toList, rfl⟩)).1⟩

theorem deployLoop_services (env : Env) (oracle : Chars → Nat → Outcome) :
    ∀ names : List Chars, ((deployLoop env oracle names).1).map (·.service) = names := by
  intro names
  induction names with
  | nil => rfl
  | cons s rest ih =>
    cases hw : getWebhookUrl env s with
    | error e => simp [deployLoop, hw, ih]
    | ok u =>
      cases hr : (triggerWebhook (oracle s) s 1 3).result with
      | ok b => simp [deployLoop, hw, hr, ih]
      | error te => simp [deployLoop, hw, hr, ih]

theorem mem_partition_filter_map (rs : List DeployResult) (n : Chars) :
    (n ∈ (rs.filter (·.success)).map (·.service)
      ∨ n ∈ (rs.filter fun r => !r.success).map (·.service))
    ↔ n ∈ rs.map (·.service) := by
  simp only [List.mem_map, List.mem_filter]
  constructor
  · rintro (⟨r, ⟨hr, _⟩, rfl⟩ | ⟨r, ⟨hr, _⟩, rfl⟩) <;> exact ⟨r, hr, rfl⟩
  · rintro ⟨r, hr, rfl⟩
    by_cases hs : r.success
    · exact Or.inl ⟨r, ⟨hr, by simp [hs]⟩, rfl⟩
    · exact Or.inr ⟨r, ⟨hr, by simp [hs]⟩, rfl⟩

theorem not_mem_both_filter_map (rs : List DeployResult)
    (hnd : (rs.map (·.service)).Nodup) (n : Chars) :
    ¬ (n ∈ (rs.filter (·.success)).map (·.service)
      ∧ n ∈ (rs.filter fun r => !r.success).map (·.service)) := by
  rintro ⟨h1, h2⟩
  simp only [List.mem_map, List.mem_filter] at h1 h2
  obtain ⟨r1, ⟨hr1, hs1⟩, hn1⟩ := h1
  obtain ⟨r2, ⟨hr2, hs2⟩, hn2⟩ := h2
  have heq : r1 = r2 :=
    List.inj_on_of_nodup_map hnd hr1 hr2 (hn1.trans hn2.symm)
  subst heq
  rw [hs1] at hs2
  exact Bool.noConfusion hs2

/-- C3.  In `deploy()`, a per-service failure does not abort the batch:
whenever the change set yields a nonempty service list, the final summary
has `skipped = false`, carries a `failed` list, `success = true` exactly
when that list is empty, every extracted service lands in exactly one of
`deployed`/`failed` (so later services are processed regardless of earlier
failures); concretely, with service `a` resolving and succeeding and
service `b` missing its secret, the summary is
`success = false, deployed = [a], failed = [b]`. -/
theorem deploy_isolates_failures :
    (∀ (files : List Chars) (env : Env) (oracle : Chars → Nat → Outcome),
      extractServiceNames files ≠ [] →
      (deploy (some files) env oracle).1.skipped = false
      ∧ ∃ fl, (deploy (some files) env oracle).1.failed = some fl
        ∧ ((deploy (some files) env oracle).1.success = true ↔ fl = [])
        ∧ (∀ n, n ∈ extractServiceNames files
            ↔ (n ∈ (deploy (some files) env oracle).1.deployed ∨ n ∈ fl))
        ∧ (∀ n, ¬ (n ∈ (deploy (some files) env oracle).1.deployed ∧ n ∈ fl)))
    ∧ ((deploy (some ["services/a/compose.yaml".toList, "services/b/compose.yaml".toList])
          (fun k => if k = "PORTAINER_WEBHOOK_A".toList
            then some "https://portainer.example/api/webhook".toList else none)
          (fun _ _ => .status 200 [])).1.success = false
      ∧ (deploy (some ["services/a/compose.yaml".toList, "services/b/compose.yaml".toList])
          (fun k => if k = "PORTAINER_WEBHOOK_A".toList
            then some "https://portainer.example/api/webhook".toList else none)
          (fun _ _ => .status 200 [])).1.deployed = ["a".toList]
      ∧ (deploy (some ["services/a/compose.yaml".toList, "services/b/compose.yaml".toList])
          (fun k => if k = "PORTAINER_WEBHOOK_A".toList
            then some "https://portainer.example/api/webhook".toList else none)
          (fun _ _ => .status 200 [])).1.failed = some ["b".toList]) := by
  constructor
  · intro files env oracle hne
    have hds := deployLoop_services env oracle (extractServiceNames files)
    have hnd : (((deployLoop env oracle (extractServiceNames files)).1).map
        (·.service)).Nodup := by
      rw [hds]
      exact nodup_foldl_extractStep files [] (by simp)
    have hdep : deploy (some files) env oracle =
        (⟨((deployLoop env oracle (extractServiceNames files)).1.filter
            fun r => !r.success).isEmpty,
          ((deployLoop env oracle (extractServiceNames files)).1.filter
            (·.success)).map (·.service),
          some (((deployLoop env oracle (extractServiceNames files)).1.filter
            fun r => !r.success).map (·.service)),
          some (deployLoop env oracle (extractServiceNames files)).1,
          false, none⟩,
          (deployLoop env oracle (extractServiceNames files)).2) := by
      simp only [deploy, if_neg hne]
    rw [hdep]
    refine ⟨rfl, ((deployLoop env oracle (extractServiceNames files)).1.filter
      fun r => !r.success).map (·.service), rfl, ?_, ?_, ?_⟩
    · show ((deployLoop env oracle (extractServiceNames files)).1.filter
        fun r => !r.success).isEmpty = true ↔ _
      rw [List.isEmpty_iff]
      exact (List.map_eq_nil_iff).symm
    · intro n
      have hpart := mem_partition_filter_map
        (deployLoop env oracle (extractServiceNames files)).1 n
      rw [hds] at hpart
      exact hpart.symm
    · intro n
      exact not_mem_both_filter_map _ hnd n
  · exact ⟨by decide, by decide, by decide⟩

/-- Witness for `deploy_isolates_failures`: a concrete one-service change
set with a missing secret still produces an unskipped summary. -/
theorem deploy_isolates_failures_witness :
    (deploy (some ["services/x/compose.yaml".toList])
        (fun _ => none) (fun _ _ => .status 200 [])).1.skipped = false := by
  exact (deploy_isolates_failures.1 ["services/x/compose.yaml".toList] (fun _ => none)
    (fun _ _ => .status 200 []) (by decide)).1

/-- C4 (amended).  When change detection is undetermined (`null` changed
files), `deploy()` returns `success = true`, `skipped = true`, empty
`deployed`, the skip reason, NO `failed` or `results` fields (they are
absent from the returned object), and attempts no webhook dispatch (the
dispatch trace is empty). -/
theorem deploy_undetermined_skip :
    ∀ (env : Env) (oracle : Chars → Nat → Outcome),
      deploy none env oracle
        = (⟨true, [], none, none, true, some skipReasonMsg⟩, []) := by
  intro env oracle
  rfl

/-- C4 counterexample: the skip-branch summary of `deploy()` carries no
`failed` field at all (the JS object literal omits it), so "empty deployed
and failed sets" fails as stated: `failed` is absent (`none`), not the
empty set. -/
theorem deploy_undetermined_no_failed_field :
    (deploy none (fun _ => none) (fun _ _ => .timeout)).1.failed ≠ some []
    ∧ (deploy none (fun _ => none) (fun _ _ => .timeout)).1.failed = none := by
  exact ⟨by decide, rfl⟩

/-- C6 counterexample: the environment-variable variant's `getWebhookUrl`
performs no scheme validation — with the secret set to an `http://` URL it
returns that value instead of failing, refuting the claim for that
variant. -/
theorem envVariant_returns_non_https :
    EnvVariant.getWebhookUrl
        (fun k => if k = "PORTAINER_WEBHOOK_HELLO".toList
          then some ("http://portainer.local/api/webhook".toList) else none)
        ("hello".toList)
      = .ok ("http://portainer.local/api/webhook".toList)
    ∧ ("https://".toList).isPrefixOf ("http://portainer.local/api/webhook".toList)
        = false := by
  exact ⟨by decide, by decide⟩

theorem getWebhookUrl_eq_of_none {env : Env} {serviceName : Chars}
    (henv : env (secretKeyChars serviceName) = none) :
    getWebhookUrl env serviceName
      = .error (.missingSecret (missingSecretMsg (secretKeyChars serviceName) serviceName)) := by
  unfold getWebhookUrl
  rw [henv]

theorem getWebhookUrl_eq_of_some {env : Env} {serviceName url : Chars}
    (henv : env (secretKeyChars serviceName) = some url) :
    getWebhookUrl env serviceName
      = (if url = [] then
          .error (.missingSecret (missingSecretMsg (secretKeyChars serviceName) serviceName))
        else if ("https://".toList).isPrefixOf url then .ok url
        else .error (.invalidScheme (invalidSchemeMsg serviceName))) := by
  unfold getWebhookUrl
  rw [henv]

theorem envGetWebhookUrl_eq_of_none {env : Env} {serviceName : Chars}
    (henv : env (secretKeyChars serviceName) = none) :
    EnvVariant.getWebhookUrl env serviceName
      = .error (.missingSecret
          (EnvVariant.missingSecretMsg (secretKeyChars serviceName) serviceName)) := by
  unfold EnvVariant.getWebhookUrl
  rw [henv]

theorem envGetWebhookUrl_eq_of_some {env : Env} {serviceName url : Chars}
    (henv : env (secretKeyChars serviceName) = some url) :
    EnvVariant.getWebhookUrl env serviceName
      = (if url = [] then
          .error (.missingSecret
            (EnvVariant.missingSecretMsg (secretKeyChars serviceName) serviceName))
        else .ok url) := by
  unfold EnvVariant.getWebhookUrl
  rw [henv]

/-- C6 (amended).  The MAIN script's `getWebhookUrl` fails with the
invalid-scheme error whenever the variable is set to a nonempty value not
starting with `https://`, and every value it returns starts with
`https://`; the environment-variable variant's `getWebhookUrl` performs no
scheme validation and returns any nonempty value unchanged. -/
theorem getWebhookUrl_scheme_spec :
    (∀ (env : Env) (serviceName url : Chars),
      env (secretKeyChars serviceName) = some url → url ≠ [] →
      ("https://".toList).isPrefixOf url = false →
      getWebhookUrl env serviceName
        = .error (.invalidScheme (invalidSchemeMsg serviceName)))
    ∧ (∀ (env : Env) (serviceName u : Chars),
      getWebhookUrl env serviceName = .ok u →
      ("https://".toList).isPrefixOf u = true)
    ∧ (∀ (env : Env) (serviceName url : Chars),
      env (secretKeyChars serviceName) = some url → url ≠ [] →
      EnvVariant.getWebhookUrl env serviceName = .ok url) := by
  refine ⟨?_, ?_, ?_⟩
  · intro env serviceName url henv hne hpre
    rw [getWebhookUrl_eq_of_some henv, if_neg hne, if_neg (by rw [hpre]; exact Bool.false_ne_true)]
  · intro env serviceName u h
    cases henv : env (secretKeyChars serviceName) with
    | none => rw [getWebhookUrl_eq_of_none henv] at h; exact absurd h (by simp)
    | some url =>
      rw [getWebhookUrl_eq_of_some henv] at h
      by_cases hn : url = []
      · rw [if_pos hn] at h; exact absurd h (by simp)
      · rw [if_neg hn] at h
        by_cases hp : ("https://".toList).isPrefixOf url = true
        · rw [if_pos hp] at h
          have : url = u := by simpa using h
          rw [← this]; exact hp
        · rw [if_neg hp] at h; exact absurd h (by simp)
  · intro env serviceName url henv hne
    rw [envGetWebhookUrl_eq_of_some henv, if_neg hne]

/-- Witness for `getWebhookUrl_scheme_spec`: a concrete `http://` secret is
rejected by the main script, and a concrete value is passed through
unvalidated by the variant. -/
theorem getWebhookUrl_scheme_spec_witness :
    getWebhookUrl
        (fun k => if k = "PORTAINER_WEBHOOK_HELLO".toList
          then some ("http://x".toList) else none) ("hello".toList)
      = .error (.invalidScheme (invalidSchemeMsg ("hello".toList)))
    ∧ EnvVariant.getWebhookUrl
        (fun k => if k = "PORTAINER_WEBHOOK_ADGUARD".toList
          then some ("https://ok".toList) else none) ("adguard".toList)
      = .ok ("https://ok".toList) := by
  exact ⟨getWebhookUrl_scheme_spec.1 _ ("hello".toList) ("http://x".toList)
      (by decide) (by decide) (by decide),
    getWebhookUrl_scheme_spec.2.2 _ ("adguard".toList) ("https://ok".toList)
      (by decide) (by decide)⟩

/-- C7.  In both variants, `getWebhookUrl` fails with the missing-secret
error exactly when the environment variable is unset or empty; the error
message is a fixed template of the service name alone (so it cannot echo
any secret value), it names the expected variable (the secret key occurs
verbatim inside it), and it carries the numbered remediation steps of the
source template. -/
theorem getWebhookUrl_missing_secret_spec (env : Env) (serviceName : Chars) :
    ((∃ m, getWebhookUrl env serviceName = .error (.missingSecret m))
      ↔ (env (secretKeyChars serviceName) = none
        ∨ env (secretKeyChars serviceName) = some []))
    ∧ (∀ m, getWebhookUrl env serviceName = .error (.missingSecret m) →
        m = missingSecretMsg (secretKeyChars serviceName) serviceName
        ∧ ∃ pre post, m = pre ++ secretKeyChars serviceName ++ post)
    ∧ ((∃ m, EnvVariant.getWebhookUrl env serviceName = .error (.missingSecret m))
      ↔ (env (secretKeyChars serviceName) = none
        ∨ env (secretKeyChars serviceName) = some []))
    ∧ (∀ m, EnvVariant.getWebhookUrl env serviceName = .error (.missingSecret m) →
        m = EnvVariant.missingSecretMsg (secretKeyChars serviceName) serviceName
        ∧ ∃ pre post, m = pre ++ secretKeyChars serviceName ++ post) := by
  refine ⟨?_, ?_, ?_, ?_⟩
  · constructor
    · rintro ⟨m, hm⟩
      cases henv : env (secretKeyChars serviceName) with
      | none => exact Or.inl rfl
      | some url =>
        rw [getWebhookUrl_eq_of_some henv] at hm
        by_cases hn : url = []
        · subst hn; exact Or.inr rfl
        · rw [if_neg hn] at hm
          by_cases hp : ("https://".toList).isPrefixOf url = true
          · rw [if_pos hp] at hm; exact absurd hm (by simp)
          · rw [if_neg hp] at hm; simp at hm
    · rintro (h | h)
      · exact ⟨_, getWebhookUrl_eq_of_none h⟩
      · exact ⟨missingSecretMsg (secretKeyChars serviceName) serviceName,
          by rw [getWebhookUrl_eq_of_some h, if_pos rfl]⟩
  · intro m hm
    have hmsg : m = missingSecretMsg (secretKeyChars serviceName) serviceName := by
      cases henv : env (secretKeyChars serviceName) with
      | none =>
        rw [getWebhookUrl_eq_of_none henv] at hm
        simpa using hm.symm
      | some url =>
        rw [getWebhookUrl_eq_of_some henv] at hm
        by_cases hn : url = []
        · rw [if_pos hn] at hm; simpa using hm.symm
        · rw [if_neg hn] at hm
          by_cases hp : ("https://".toList).isPrefixOf url = true
          · rw [if_pos hp] at hm; exact absurd hm (by simp)
          · rw [if_neg hp] at hm; simp at hm
    refine ⟨hmsg, "Secret ".toList,
      " not found for service ".toList ++ [squote] ++ serviceName ++ [squote]
        ++ ". ".toList ++ ['\n']
        ++ "1. Enable webhook in Portainer UI for ".toList ++ [squote] ++ serviceName
        ++ [squote] ++ " service".toList ++ ['\n']
        ++ "2. Copy webhook URL from Portainer".toList ++ ['\n']
        ++ "3. Add to GitHub secrets with name: ".toList
        ++ secretKeyChars serviceName ++ ['\n']
        ++ "4. Update .github/workflows/portainer-deploy.yml to pass the secret as environment variable".toList,
      ?_⟩
    rw [hmsg]
    simp [missingSecretMsg, List.append_assoc]
  · constructor
    · rintro ⟨m, hm⟩
      cases henv : env (secretKeyChars serviceName) with
      | none => exact Or.inl rfl
      | some url =>
        rw [envGetWebhookUrl_eq_of_some henv] at hm
        by_cases hn : url = []
        · subst hn; exact Or.inr rfl
        · rw [if_neg hn] at hm; exact absurd hm (by simp)
    · rintro (h | h)
      · exact ⟨_, envGetWebhookUrl_eq_of_none h⟩
      · exact ⟨EnvVariant.missingSecretMsg (secretKeyChars serviceName) serviceName,
          by rw [envGetWebhookUrl_eq_of_some h, if_pos rfl]⟩
  · intro m hm
    have hmsg : m = EnvVariant.missingSecretMsg (secretKeyChars serviceName) serviceName := by
      cases henv : env (secretKeyChars serviceName) with
      | none =>
        rw [envGetWebhookUrl_eq_of_none henv] at hm
        simpa using hm.symm
      | some url =>
        rw [envGetWebhookUrl_eq_of_some henv] at hm
        by_cases hn : url = []
        · rw [if_pos hn] at hm; simpa using hm.symm
        · rw [if_neg hn] at hm; exact absurd hm (by simp)
    refine ⟨hmsg, "Secret ".toList,
      " not found for service ".toList ++ [squote] ++ serviceName ++ [squote]
        ++ ".".toList ++ ['\n']
        ++ "1. Enable webhook in Portainer UI for ".toList ++ [squote] ++ serviceName
        ++ [squote] ++ " service".toList ++ ['\n']
        ++ "2. Copy webhook URL from Portainer".toList ++ ['\n']
        ++ "3. Add to GitHub secrets with name: ".toList
        ++ secretKeyChars serviceName ++ ['\n']
        ++ "4. Update .github/workflows/portainer-deploy.yml to pass the secret as environment variable".toList,
      ?_⟩
    rw [hmsg]
    simp [EnvVariant.missingSecretMsg, List.append_assoc]

/-- Witness for `getWebhookUrl_missing_secret_spec` at an empty environment
and the `hello` service of the test fixtures. -/
theorem getWebhookUrl_missing_secret_spec_witness :
    (∃ m, getWebhookUrl (fun _ => none) ("hello".toList) = .error (.missingSecret m))
    ∧ (∃ pre post,
        missingSecretMsg (secretKeyChars ("hello".toList)) ("hello".toList)
          = pre ++ secretKeyChars ("hello".toList) ++ post) := by
  constructor
  · exact (getWebhookUrl_missing_secret_spec (fun _ => none) ("hello".toList)).1.mpr
      (Or.inl rfl)
  · exact ((getWebhookUrl_missing_secret_spec (fun _ => none) ("hello".toList)).2.1
      (missingSecretMsg (secretKeyChars ("hello".toList)) ("hello".toList))
      (getWebhookUrl_eq_of_none rfl)).2

theorem char_ofNat_upper_ne_dash (m : Nat) (h65 : 65 ≤ m) (h90 : m ≤ 90) :
    Char.ofNat m ≠ '-' := by
  interval_cases m <;> decide

theorem toUpper_ne_dash (c : Char) (hc : c ≠ '-') : Char.toUpper c ≠ '-' := by
  simp only [Char.toUpper]
  by_cases h : c.toNat ≥ 97 ∧ c.toNat ≤ 122
  · rw [if_pos h]
    exact char_ofNat_upper_ne_dash _ (by omega) (by omega)
  · rw [if_neg h]
    exact hc

theorem toUpper_dashToUnderscore_comm (c : Char) :
    Char.toUpper (dashToUnderscore c) = dashToUnderscore (Char.toUpper c) := by
  by_cases hc : c = '-'
  · subst hc; decide
  · simp only [dashToUnderscore, if_neg hc, if_neg (toUpper_ne_dash c hc)]

/-- C8.  The secret-key transform is a pure total function of the service
name, equal to the spec's description (uppercase, replace every `-` with
`_`, prepend the constant `PORTAINER_WEBHOOK_`); in particular
`home-assistant` maps to `PORTAINER_WEBHOOK_HOME_ASSISTANT` and `hello` to
`PORTAINER_WEBHOOK_HELLO`. -/
theorem secretKey_transform_spec :
    (∀ serviceName : Chars, secretKeyChars serviceName = secretKeySpec serviceName)
    ∧ secretKeyChars ("home-assistant".toList)
        = "PORTAINER_WEBHOOK_HOME_ASSISTANT".toList
    ∧ secretKeyChars ("hello".toList) = "PORTAINER_WEBHOOK_HELLO".toList := by
  refine ⟨?_, by decide, by decide⟩
  intro serviceName
  unfold secretKeyChars secretKeySpec
  rw [List.map_map, List.map_map]
  congr 1
  exact List.map_congr_left fun c _ => toUpper_dashToUnderscore_comm c

/-- C9.  The secret-key transform is not injective: `home-assistant` and
`home_assistant` (and likewise `hello` and `HELLO`) are distinct service
names mapped to the same secret key, so they resolve through the same
webhook environment variable and secret resolution returns the same value
for both. -/
theorem secretKey_not_injective :
    secretKeyChars ("home-assistant".toList) = secretKeyChars ("home_assistant".toList)
    ∧ ("home-assistant".toList : Chars) ≠ "home_assistant".toList
    ∧ secretKeyChars ("hello".toList) = secretKeyChars ("HELLO".toList)
    ∧ ("hello".toList : Chars) ≠ "HELLO".toList
    ∧ ¬ Function.Injective secretKeyChars
    ∧ (∀ (env : Env) (u : Chars),
        getWebhookUrl env ("home-assistant".toList) = .ok u
          ↔ getWebhookUrl env ("home_assistant".toList) = .ok u) := by
  refine ⟨by decide, by decide, by decide, by decide, ?_, ?_⟩
  · intro hinj
    have h := hinj
      (show secretKeyChars ("hello".toList) = secretKeyChars ("HELLO".toList) from by decide)
    exact absurd h (by decide)
  · intro env u
    have hk : secretKeyChars ("home_assistant".toList)
        = secretKeyChars ("home-assistant".toList) := by decide
    cases henv : env (secretKeyChars ("home-assistant".toList)) with
    | none =>
      rw [getWebhookUrl_eq_of_none henv, getWebhookUrl_eq_of_none (hk ▸ henv)]
      simp
    | some url =>
      rw [getWebhookUrl_eq_of_some henv, getWebhookUrl_eq_of_some (hk ▸ henv)]
      by_cases hn : url = []
      · simp [if_pos hn]
      · rw [if_neg hn, if_neg hn]
        by_cases hp : ("https://".toList).isPrefixOf url = true
        · rw [if_pos hp, if_pos hp]
        · rw [if_neg hp, if_neg hp]
          simp

/-- Witness applying `secretKey_not_injective`: the two hyphen/underscore
spellings of the same service resolve identically in a concrete
environment. -/
theorem secretKey_not_injective_witness :
    getWebhookUrl (fun _ => none) ("home-assistant".toList) = .ok ("x".toList)
      ↔ getWebhookUrl (fun _ => none) ("home_assistant".toList) = .ok ("x".toList) := by
  exact secretKey_not_injective.2.2.2.2.2 (fun _ => none) ("x".toList)

theorem run_dispatch_eq (s : Chars) (env : Env) (oracle : Chars → Nat → Outcome)
    (hs : s ≠ [])
    (hnames : extractServiceNames (EnvVariant.splitOnSpace s) ≠ []) :
    EnvVariant.run (some s) env oracle =
      ⟨((EnvVariant.runLoop env oracle
          (extractServiceNames (EnvVariant.splitOnSpace s))).filter
            (·.success)).map (·.service),
        none,
        some (((EnvVariant.runLoop env oracle
          (extractServiceNames (EnvVariant.splitOnSpace s))).filter
            fun r => !r.success).map (·.service)),
        ((EnvVariant.runLoop env oracle
          (extractServiceNames (EnvVariant.splitOnSpace s))).filter
            fun r => !r.success).isEmpty⟩ := by
  simp only [EnvVariant.run, if_neg hs, if_neg hnames]

/-- C10.  In the environment-variable variant, `run()` treats an unset
`ALL_CHANGED_FILES` exactly like the empty string (the definite empty
change set), returning success with no deployments and no undetermined
outcome; BOTH no-op early returns — empty/unset input, and nonempty input
with no matched services — return the same summary carrying `skipped` as
the empty ARRAY `[]` (never a boolean) and omitting `failed`; in every run
the `skipped` field is either that empty array or absent; and the final
post-dispatch summary omits `skipped` entirely while carrying `failed`. -/
theorem run_empty_changed_files_spec :
    (∀ (env : Env) (oracle : Chars → Nat → Outcome),
      EnvVariant.run none env oracle
        = ⟨[], some [], none, true⟩
      ∧ EnvVariant.run (some []) env oracle = EnvVariant.run none env oracle)
    ∧ (∀ (s : Chars) (env : Env) (oracle : Chars → Nat → Outcome),
        s ≠ [] → extractServiceNames (EnvVariant.splitOnSpace s) = [] →
        EnvVariant.run (some s) env oracle = ⟨[], some [], none, true⟩)
    ∧ (∀ (s : Option Chars) (env : Env) (oracle : Chars → Nat → Outcome),
        (EnvVariant.run s env oracle).skipped = some []
        ∨ (EnvVariant.run s env oracle).skipped = none)
    ∧ (∀ (s : Chars) (env : Env) (oracle : Chars → Nat → Outcome),
        s ≠ [] → extractServiceNames (EnvVariant.splitOnSpace s) ≠ [] →
        (EnvVariant.run (some s) env oracle).skipped = none
        ∧ ∃ fl, (EnvVariant.run (some s) env oracle).failed = some fl) := by
  refine ⟨?_, ?_, ?_, ?_⟩
  · intro env oracle
    exact ⟨rfl, rfl⟩
  · intro s env oracle hs hnames
    simp only [EnvVariant.run, if_neg hs, if_pos hnames]
  · intro s env oracle
    cases s with
    | none => left; rfl
    | some str =>
      by_cases hstr : str = []
      · subst hstr; left; rfl
      · by_cases hnames : extractServiceNames (EnvVariant.splitOnSpace str) = []
        · left
          simp only [EnvVariant.run, if_neg hstr, if_pos hnames]
        · right
          rw [run_dispatch_eq str env oracle hstr hnames]
  · intro s env oracle hs hnames
    rw [run_dispatch_eq s env oracle hs hnames]
    exact ⟨rfl, ⟨_, rfl⟩⟩

/-- Witness for `run_empty_changed_files_spec`: the concrete no-match input
`README.md` takes the second early return with `skipped = some []` and no
`failed` field, while a changed compose file reaching dispatch produces a
summary without a `skipped` field. -/
theorem run_empty_changed_files_spec_witness :
    EnvVariant.run (some ("README.md".toList))
        (fun _ => none) (fun _ _ => .timeout)
      = ⟨[], some [], none, true⟩
    ∧ (EnvVariant.run (some ("services/a/compose.yaml".toList))
        (fun _ => none) (fun _ _ => .timeout)).skipped = none := by
  constructor
  · exact run_empty_changed_files_spec.2.1 ("README.md".toList)
      (fun _ => none) (fun _ _ => .timeout) (by decide) (by decide)
  · exact (run_empty_changed_files_spec.2.2.2 ("services/a/compose.yaml".toList)
      (fun _ => none) (fun _ _ => .timeout) (by decide) (by decide)).1

end LanInfra
